import Mathlib

/-!
Shallow embedding of the identro-sdk-js event delivery pipeline:
the bounded in-memory queue (sdk/src/storage.ts), the retry executor
(sdk/src/utils/retry.ts), the event batcher (sdk/src/batcher.ts) and the
client configuration resolution (sdk/src/client.ts).

Asynchronous methods are modelled as pure state-transition functions; the
network (the fetch inside sendBatch) is modelled as an oracle indexed by the
attempt number, and observer invocations (the onError callback and the
onRetry hook) are recorded in explicit traces.
-/

namespace IdentroSDK

/-- An event record. Only event_id is inspected by the queue and the
batcher; the remaining payload fields are carried opaquely, so a few
representative ones suffice for the embedding. -/
structure AgentEvent where
  event_id : String
  agent_id : String := ""
  task_id : String := ""
  latency_ms : Nat := 0
deriving DecidableEq, Repr

/-- State of MemoryQueueStorage (storage.ts): the backing array and the
configured capacity. -/
structure MemoryQueueStorage where
  queue : List AgentEvent
  maxSize : Nat := 10000
deriving DecidableEq, Repr

namespace MemoryQueueStorage

/-- storage.ts push: if the queue is at (or beyond) capacity, shift off the
oldest element, then append the new event. -/
def push (s : MemoryQueueStorage) (e : AgentEvent) : MemoryQueueStorage :=
  let q := if s.queue.length ≥ s.maxSize then s.queue.tail else s.queue
  { s with queue := q ++ [e] }

/-- storage.ts peek: slice(0, count) of the backing array, state untouched.
The returned pair makes the absence of mutation explicit. -/
def peek (s : MemoryQueueStorage) (count : Nat) :
    List AgentEvent × MemoryQueueStorage :=
  (s.queue.take count, s)

/-- storage.ts remove: drop every event whose event_id is in the given
list. -/
def remove (s : MemoryQueueStorage) (eventIds : List String) :
    MemoryQueueStorage :=
  { s with queue := s.queue.filter (fun e => ! eventIds.contains e.event_id) }

/-- storage.ts size. -/
def size (s : MemoryQueueStorage) : Nat := s.queue.length

/-- storage.ts clear. -/
def clear (s : MemoryQueueStorage) : MemoryQueueStorage :=
  { s with queue := [] }

/-- Fold a sequence of push operations over the storage. -/
def pushAll (s : MemoryQueueStorage) (es : List AgentEvent) :
    MemoryQueueStorage :=
  es.foldl push s

end MemoryQueueStorage

/-- The shape JavaScript error values take in this code base: an optional
HTTP status, an optional error code, and an optional error name, as probed
by isRetryableError (utils/retry.ts). -/
structure JsError where
  status : Option Int := none
  code : Option String := none
  name : Option String := none
deriving DecidableEq, Repr

/-- utils/retry.ts isRetryableError: connection errors, HTTP 429, HTTP 5xx
and fetch network/timeout errors are retryable; everything else is not. -/
def isRetryableError (e : JsError) : Bool :=
  if e.code == some "ECONNREFUSED" || e.code == some "ETIMEDOUT" then
    true
  else if e.status == some 429 ||
      (match e.status with
       | some s => decide (500 ≤ s) && decide (s < 600)
       | none => false) then
    true
  else if e.name == some "NetworkError" || e.name == some "TimeoutError" then
    true
  else
    false

/-- utils/retry.ts RetryOptions. The onRetry hook is an observer; its
invocations are recorded in the RetryResult trace instead of being passed
as a function. -/
structure RetryOptions where
  maxRetries : Nat
  retryDelay : Nat
  maxDelay : Option Nat := none
deriving DecidableEq, Repr

/-- One retry step of withRetry, in source order: the caught error, the
attempt number handed to the onRetry hook (attempt + 1 in the source), and
the backoff delay waited immediately after the hook returns. -/
structure RetryStep (ε : Type) where
  error : ε
  attempt : Nat
  delay : Nat
deriving DecidableEq, Repr

/-- The observable outcome of one withRetry run: the propagated result,
how many times the operation was invoked, and the retry steps
(hook invocation followed by backoff wait) in order. -/
structure RetryResult (ε α : Type) where
  result : Except ε α
  calls : Nat
  steps : List (RetryStep ε)
deriving Repr

/-- The body of the withRetry loop (utils/retry.ts). fn is the operation,
modelled as an oracle from the attempt index to that invocation's outcome;
attempt is the current loop index and remaining the number of retries still
allowed (maxRetries - attempt). -/
def withRetryAux {ε α : Type} (fn : Nat → Except ε α)
    (retryDelay maxDelay : Nat) : Nat → Nat → RetryResult ε α
  | attempt, 0 =>
    match fn attempt with
    | .ok v => ⟨.ok v, 1, []⟩
    | .error e => ⟨.error e, 1, []⟩
  | attempt, remaining + 1 =>
    match fn attempt with
    | .ok v => ⟨.ok v, 1, []⟩
    | .error e =>
      let d := min (retryDelay * 2 ^ attempt) maxDelay
      let rest := withRetryAux fn retryDelay maxDelay (attempt + 1) remaining
      ⟨rest.result, rest.calls + 1, ⟨e, attempt + 1, d⟩ :: rest.steps⟩

/-- utils/retry.ts withRetry: attempts run from 0 to maxRetries; maxDelay
defaults to 30000; on failure with attempts remaining, the delay is
min(retryDelay * 2 ^ attempt, maxDelay); after the final failure the last
error propagates. -/
def withRetry {ε α : Type} (fn : Nat → Except ε α) (o : RetryOptions) :
    RetryResult ε α :=
  withRetryAux fn o.retryDelay (o.maxDelay.getD 30000) 0 o.maxRetries

/-- A per-event rejection entry of a BatchResult (types.ts). -/
structure EventError where
  event_id : String
  error : String := ""
deriving DecidableEq, Repr

/-- types.ts BatchResult: accepted/rejected counts and the optional
per-event rejection list. -/
structure BatchResult where
  accepted : Nat
  rejected : Nat
  errors : Option (List EventError) := none
deriving DecidableEq, Repr

/-- The tunables of BatcherConfig (batcher.ts) that the control flow reads.
endpoint, apiKey and the logger only feed the network request and log
lines; hasOnError records whether the optional onError callback was
supplied, which switches the catch branch in processBatch. -/
structure BatcherConfig where
  batchSize : Nat
  flushInterval : Nat := 1000
  maxRetries : Nat
  retryDelay : Nat
  hasOnError : Bool
deriving DecidableEq, Repr

/-- Mutable state of EventBatcher (batcher.ts): the storage plus the
isProcessing and isStopped flags and whether the auto-flush timer is set. -/
structure BatcherState where
  storage : MemoryQueueStorage
  isProcessing : Bool := false
  isStopped : Bool := false
  timerActive : Bool := true
deriving DecidableEq, Repr

/-- Observable outcome of one processBatch call: the storage afterwards,
the onError invocations (error plus the batch passed to it), the error
rethrown to the caller when no onError handler exists, and how many times
the network operation inside sendBatch was invoked. -/
structure ProcessOutcome where
  storage : MemoryQueueStorage
  onErrorCalls : List (JsError × List AgentEvent) := []
  thrown : Option JsError := none
  transportCalls : Nat := 0
deriving Repr

/-- batcher.ts processBatch. The fetch inside sendBatch is modelled as an
oracle from the attempt index to the outcome of that network call; sendBatch
wraps it in withRetry with the configured maxRetries and retryDelay. On a
delivery result, events with no entry in the errors list are removed; on a
terminal error, onError (when present) is invoked once and non-retryable
errors additionally drop the whole batch, while without onError the error
is rethrown before the removal line is reached. -/
def processBatch (cfg : BatcherConfig)
    (fetchOracle : Nat → Except JsError BatchResult)
    (st : MemoryQueueStorage) : ProcessOutcome :=
  let events := (st.peek cfg.batchSize).1
  if events.length = 0 then
    { storage := st }
  else
    let tr := withRetry fetchOracle
      { maxRetries := cfg.maxRetries, retryDelay := cfg.retryDelay }
    match tr.result with
    | .ok result =>
      let successfulIds :=
        (events.filter (fun ev =>
          ((result.errors.getD []).find? (fun er =>
            er.event_id == ev.event_id)).isNone)).map (fun e => e.event_id)
      { storage := st.remove successfulIds, transportCalls := tr.calls }
    | .error err =>
      if cfg.hasOnError then
        let st1 :=
          if isRetryableError err then st
          else st.remove (events.map (fun e => e.event_id))
        { storage := st1, onErrorCalls := [(err, events)],
          transportCalls := tr.calls }
      else
        { storage := st, thrown := some err, transportCalls := tr.calls }

/-- Observable outcome of flush / stop: the batcher state afterwards plus
the processBatch trace. -/
structure FlushResult where
  state : BatcherState
  onErrorCalls : List (JsError × List AgentEvent) := []
  thrown : Option JsError := none
  transportCalls : Nat := 0
deriving Repr

/-- batcher.ts flush: returns at once when isProcessing or isStopped;
otherwise sets isProcessing, runs processBatch, and clears isProcessing in
a finally block, so the flag is false on every exit of the executing
branch even when processBatch throws. -/
def EventBatcher.flush (cfg : BatcherConfig)
    (fetchOracle : Nat → Except JsError BatchResult)
    (b : BatcherState) : FlushResult :=
  if b.isProcessing || b.isStopped then
    { state := b }
  else
    let o := processBatch cfg fetchOracle b.storage
    { state := { b with storage := o.storage, isProcessing := false },
      onErrorCalls := o.onErrorCalls, thrown := o.thrown,
      transportCalls := o.transportCalls }

/-- The error thrown by add after shutdown (the source throws an Error
with message Batcher has been stopped). -/
inductive StoppedError where
  | stopped
deriving DecidableEq, Repr

/-- Observable outcome of add: the state afterwards, whether the event was
accepted or a StoppedError was thrown, and whether the un-awaited
size-triggered this.flush() call was issued. add itself performs no
network call; the triggered flush runs as a detached task. -/
structure AddResult where
  state : BatcherState
  result : Except StoppedError Unit
  flushTriggered : Bool
  transportCalls : Nat := 0
deriving Repr

/-- batcher.ts add: throws when stopped, otherwise pushes the event and
requests a (non-awaited) flush when the queue size has reached
batchSize. -/
def EventBatcher.add (cfg : BatcherConfig) (b : BatcherState)
    (e : AgentEvent) : AddResult :=
  if b.isStopped then
    { state := b, result := .error .stopped, flushTriggered := false }
  else
    let st := b.storage.push e
    { state := { b with storage := st }, result := .ok (),
      flushTriggered := decide (st.size ≥ cfg.batchSize) }

/-- batcher.ts stop: sets isStopped, clears the timer, then awaits
flush(). -/
def EventBatcher.stop (cfg : BatcherConfig)
    (fetchOracle : Nat → Except JsError BatchResult)
    (b : BatcherState) : FlushResult :=
  let b1 := { b with isStopped := true, timerActive := false }
  EventBatcher.flush cfg fetchOracle b1

/-- The numeric tunables of IdentroConfig (types.ts) that the client
constructor resolves. None models an absent property; JavaScript NaN is
outside the model. -/
structure IdentroConfig where
  apiKey : String
  batchSize : Option Int := none
  flushInterval : Option Int := none
  maxRetries : Option Int := none
  retryDelay : Option Int := none
deriving DecidableEq, Repr

/-- The resolved numeric tunables held in the client's Required config. -/
structure ResolvedConfig where
  batchSize : Int
  flushInterval : Int
  maxRetries : Int
  retryDelay : Int
deriving DecidableEq, Repr

/-- The JavaScript idiom config.x || d on an optional number: an absent
property and the falsy value 0 both yield the default; every other number,
negative ones included, is kept. -/
def orDefault (v : Option Int) (d : Int) : Int :=
  match v with
  | none => d
  | some x => if x = 0 then d else x

/-- client.ts constructor: throws when apiKey is falsy (empty), otherwise
resolves each tunable with the || defaults 100, 1000, 3, 1000. No other
validation is performed. -/
def IdentroClient.mkConfig (c : IdentroConfig) :
    Except String ResolvedConfig :=
  if c.apiKey = "" then
    .error "API key is required"
  else
    .ok { batchSize := orDefault c.batchSize 100,
          flushInterval := orDefault c.flushInterval 1000,
          maxRetries := orDefault c.maxRetries 3,
          retryDelay := orDefault c.retryDelay 1000 }

/-! Concrete fixtures shared by witnesses and counterexamples. -/

/-- A fixture event. -/
def evA : AgentEvent := { event_id := "a" }

/-- A fixture event. -/
def evB : AgentEvent := { event_id := "b" }

/-- A fixture event. -/
def evC : AgentEvent := { event_id := "c" }

/-- A fixture batcher configuration. -/
def cfgW : BatcherConfig :=
  { batchSize := 5, maxRetries := 2, retryDelay := 1000, hasOnError := true }

/-- A fixture network oracle that always succeeds with no rejections. -/
def fetchOkOracle : Nat → Except JsError BatchResult :=
  fun _ => .ok { accepted := 1, rejected := 0 }

/-- A fixture permanent (HTTP 400) error. -/
def err400 : JsError := { status := some 400 }

/-- A fixture network oracle that always fails with an HTTP 400 error. -/
def fetch400 : Nat → Except JsError BatchResult := fun _ => .error err400

/-- A fixture rejection list naming events a and c. -/
def errsAC : List EventError := [{ event_id := "a" }, { event_id := "c" }]

/-- A fixture delivery result rejecting events a and c. -/
def resRejAC : BatchResult :=
  { accepted := 1, rejected := 2, errors := some errsAC }

/-- A fixture network oracle that always succeeds while rejecting events
a and c. -/
def fetchRejAC : Nat → Except JsError BatchResult := fun _ => .ok resRejAC

/-- A fixture batcher state with three queued events. -/
def bW3 : BatcherState := { storage := { queue := [evA, evB, evC] } }

/-! Helper lemmas shared between claims. -/

/-- Folding push over any event list: the surviving queue is the
concatenation with the front dropped down to capacity. Requires a positive
capacity and a starting queue within capacity. -/
theorem pushAll_queue (C : Nat) (hC : 1 ≤ C) (es q : List AgentEvent)
    (hq : q.length ≤ C) :
    (MemoryQueueStorage.pushAll { queue := q, maxSize := C } es).queue
      = (q ++ es).drop (q.length + es.length - C) := by
  induction es generalizing q with
  | nil =>
    simp [MemoryQueueStorage.pushAll, Nat.sub_eq_zero_of_le hq]
  | cons e es ih =>
    have hstep :
        MemoryQueueStorage.pushAll { queue := q, maxSize := C } (e :: es)
          = MemoryQueueStorage.pushAll
              (MemoryQueueStorage.push { queue := q, maxSize := C } e) es := rfl
    rcases Nat.lt_or_ge q.length C with hlt | hge
    · have hpush : MemoryQueueStorage.push { queue := q, maxSize := C } e
          = { queue := q ++ [e], maxSize := C } := by
        simp [MemoryQueueStorage.push, Nat.not_le.mpr hlt]
      have hlen1 : (q ++ [e]).length ≤ C := by
        simp only [List.length_append, List.length_cons, List.length_nil]
        omega
      rw [hstep, hpush, ih _ hlen1]
      congr 1
      · simp only [List.length_append, List.length_cons, List.length_nil]
        omega
      · simp
    · have hlen : q.length = C := le_antisymm hq hge
      rcases q with _ | ⟨a, t⟩
      · simp only [List.length_nil] at hlen
        omega
      · have hlen' : t.length + 1 = C := by simpa using hlen
        have hpush : MemoryQueueStorage.push { queue := a :: t, maxSize := C } e
            = { queue := t ++ [e], maxSize := C } := by
          simp only [MemoryQueueStorage.push, ge_iff_le, List.length_cons]
          rw [if_pos (by omega)]
          rfl
        have hlen2 : (t ++ [e]).length ≤ C := by
          simp only [List.length_cons] at hlen
          simp only [List.length_append, List.length_cons, List.length_nil]
          omega
        rw [hstep, hpush, ih _ hlen2]
        have h1 : (t ++ [e]).length + es.length - C = es.length := by
          simp only [List.length_cons] at hlen
          simp only [List.length_append, List.length_cons, List.length_nil]
          omega
        have h2 : (a :: t).length + (e :: es).length - C = es.length + 1 := by
          simp only [List.length_cons] at hlen
          simp only [List.length_cons]
          omega
        rw [h1, h2]
        simp [List.append_assoc]

/-- withRetry on an operation that succeeds at the first attempt returns
that value after exactly one call and with no retry steps. -/
theorem withRetry_ok_first {ε α : Type} (fn : Nat → Except ε α)
    (o : RetryOptions) (v : α) (h : fn 0 = .ok v) :
    withRetry fn o = ⟨.ok v, 1, []⟩ := by
  unfold withRetry
  cases o.maxRetries with
  | zero => simp [withRetryAux, h]
  | succ r => simp [withRetryAux, h]

/-- The withRetry loop on an always-failing operation: the last error is
propagated, the operation runs remaining + 1 times, and the retry steps
record, in order, the hook invocation for each attempt followed by the
capped exponential backoff wait. -/
theorem withRetryAux_fail {ε α : Type} (fn : Nat → Except ε α)
    (err : Nat → ε) (hfn : ∀ a, fn a = .error (err a))
    (rd md : Nat) : ∀ (r a : Nat),
    withRetryAux fn rd md a r
      = ⟨.error (err (a + r)), r + 1,
         (List.range r).map (fun i =>
           { error := err (a + i), attempt := a + i + 1,
             delay := min (rd * 2 ^ (a + i)) md })⟩ := by
  intro r
  induction r with
  | zero =>
    intro a
    simp [withRetryAux, hfn]
  | succ r ih =>
    intro a
    have harith : a + 1 + r = a + (r + 1) := by omega
    have hsteps : (List.range (r + 1)).map (fun i =>
          ({ error := err (a + i), attempt := a + i + 1,
             delay := min (rd * 2 ^ (a + i)) md } : RetryStep ε))
        = ({ error := err a, attempt := a + 1,
             delay := min (rd * 2 ^ a) md } : RetryStep ε)
          :: (List.range r).map (fun i =>
            ({ error := err (a + 1 + i), attempt := a + 1 + i + 1,
               delay := min (rd * 2 ^ (a + 1 + i)) md } : RetryStep ε)) := by
      rw [List.range_succ_eq_map, List.map_cons, List.map_map]
      refine congrArg₂ List.cons (by simp) (List.map_congr_left ?_)
      intro i _
      have h1 : a + (i + 1) = a + 1 + i := by omega
      simp only [Function.comp_apply, Nat.succ_eq_add_one, h1]
    have hunfold : withRetryAux fn rd md a (r + 1)
        = ⟨(withRetryAux fn rd md (a + 1) r).result,
           (withRetryAux fn rd md (a + 1) r).calls + 1,
           { error := err a, attempt := a + 1, delay := min (rd * 2 ^ a) md }
             :: (withRetryAux fn rd md (a + 1) r).steps⟩ := by
      simp [withRetryAux, hfn]
    rw [hunfold, ih (a + 1)]
    dsimp only
    rw [hsteps, harith]

/-- Removing every identifier of the current queue empties it. -/
theorem remove_all_self (s : MemoryQueueStorage) :
    (s.remove (s.queue.map (fun e => e.event_id))).queue = [] := by
  simp only [MemoryQueueStorage.remove]
  rw [List.filter_eq_nil_iff]
  intro e he
  simp [List.contains, List.elem_iff, List.mem_map_of_mem _ he]

/-- The reconciliation step of processBatch at queue level: with distinct
identifiers, removing the identifiers of the events that have no entry in
the rejection list leaves exactly the events named in the rejection
list, in their original order. -/
theorem remove_successful (s : MemoryQueueStorage) (errs : List EventError)
    (hnodup : (s.queue.map (fun e => e.event_id)).Nodup) :
    (s.remove ((s.queue.filter (fun ev =>
        (errs.find? (fun er => er.event_id == ev.event_id)).isNone)).map
          (fun e => e.event_id))).queue
      = s.queue.filter (fun e =>
          (errs.map (fun er => er.event_id)).contains e.event_id) := by
  simp only [MemoryQueueStorage.remove]
  refine List.filter_congr ?_
  intro e he
  have hmem : (((s.queue.filter (fun ev =>
      (errs.find? (fun er => er.event_id == ev.event_id)).isNone)).map
        (fun ev => ev.event_id)).contains e.event_id = true)
      ↔ (errs.find? (fun er => er.event_id == e.event_id)).isNone = true := by
    constructor
    · intro h
      simp only [List.contains, List.elem_iff, List.mem_map,
        List.mem_filter] at h
      obtain ⟨ev, ⟨hev, hP⟩, hid⟩ := h
      have : ev = e :=
        List.inj_on_of_nodup_map hnodup hev he hid
      subst this
      exact hP
    · intro h
      simp only [List.contains, List.elem_iff, List.mem_map,
        List.mem_filter]
      exact ⟨e, ⟨he, h⟩, rfl⟩
  have hr : ((errs.map (fun er => er.event_id)).contains e.event_id = true)
      ↔ ¬ (errs.find? (fun er => er.event_id == e.event_id)).isNone = true := by
    simp only [List.contains, List.elem_iff, List.mem_map,
      Option.isNone_iff_eq_none, List.find?_eq_none]
    constructor
    · intro h hall
      obtain ⟨er, her, hid⟩ := h
      exact hall er her (by simp [hid])
    · intro h
      by_contra hnone
      refine h ?_
      intro er her hbeq
      exact hnone ⟨er, her, by simpa using hbeq⟩
  cases hb : ((s.queue.filter (fun ev =>
      (errs.find? (fun er => er.event_id == ev.event_id)).isNone)).map
        (fun ev => ev.event_id)).contains e.event_id with
  | false =>
    have h1 : ¬ (errs.find? (fun er => er.event_id == e.event_id)).isNone = true := by
      intro h
      rw [← hmem, hb] at h
      exact Bool.false_ne_true h
    have h2 : (errs.map (fun er => er.event_id)).contains e.event_id = true :=
      hr.mpr h1
    rw [h2]
    rfl
  | true =>
    have h1 : (errs.find? (fun er => er.event_id == e.event_id)).isNone = true :=
      hmem.mp hb
    have h2 : (errs.map (fun er => er.event_id)).contains e.event_id = false := by
      cases hcc : (errs.map (fun er => er.event_id)).contains e.event_id with
      | false => rfl
      | true => exact absurd h1 (hr.mp hcc)
    rw [h2]
    rfl

/-- flush on a live, idle batcher runs processBatch and clears
isProcessing. -/
theorem flush_active (cfg : BatcherConfig)
    (fetchOracle : Nat → Except JsError BatchResult) (b : BatcherState)
    (hP : b.isProcessing = false) (hS : b.isStopped = false) :
    EventBatcher.flush cfg fetchOracle b
      = { state := { b with
            storage := (processBatch cfg fetchOracle b.storage).storage,
            isProcessing := false },
          onErrorCalls := (processBatch cfg fetchOracle b.storage).onErrorCalls,
          thrown := (processBatch cfg fetchOracle b.storage).thrown,
          transportCalls :=
            (processBatch cfg fetchOracle b.storage).transportCalls } := by
  simp [EventBatcher.flush, hP, hS]

/-- processBatch when the first network attempt succeeds: one transport
call, and the events without an entry in the rejection list are removed. -/
theorem processBatch_ok (cfg : BatcherConfig)
    (fetchOracle : Nat → Except JsError BatchResult)
    (st : MemoryQueueStorage) (res : BatchResult)
    (h0 : fetchOracle 0 = .ok res)
    (hlen : st.queue.length ≤ cfg.batchSize) (hne : st.queue ≠ []) :
    processBatch cfg fetchOracle st
      = { storage := st.remove ((st.queue.filter (fun ev =>
            ((res.errors.getD []).find? (fun er =>
              er.event_id == ev.event_id)).isNone)).map (fun e => e.event_id)),
          transportCalls := 1 } := by
  have htake : (st.peek cfg.batchSize).1 = st.queue := by
    simp only [MemoryQueueStorage.peek]
    exact List.take_of_length_le hlen
  have hlen0 : ¬ st.queue.length = 0 := by
    simpa [List.length_eq_zero] using hne
  unfold processBatch
  rw [htake, if_neg hlen0,
    withRetry_ok_first fetchOracle _ res h0]

/-- processBatch when every network attempt fails with the same permanent
error and an onError handler is configured: maxRetries + 1 transport
calls, one onError invocation with the whole batch, nothing rethrown, and
the whole batch removed. -/
theorem processBatch_fail_perm (cfg : BatcherConfig)
    (fetchOracle : Nat → Except JsError BatchResult)
    (st : MemoryQueueStorage) (err : JsError)
    (hf : ∀ a, fetchOracle a = .error err)
    (hO : cfg.hasOnError = true)
    (hperm : isRetryableError err = false)
    (hlen : st.queue.length ≤ cfg.batchSize) (hne : st.queue ≠ []) :
    processBatch cfg fetchOracle st
      = { storage := st.remove (st.queue.map (fun e => e.event_id)),
          onErrorCalls := [(err, st.queue)],
          transportCalls := cfg.maxRetries + 1 } := by
  have htake : (st.peek cfg.batchSize).1 = st.queue := by
    simp only [MemoryQueueStorage.peek]
    exact List.take_of_length_le hlen
  have hlen0 : ¬ st.queue.length = 0 := by
    simpa [List.length_eq_zero] using hne
  have hfail := withRetryAux_fail fetchOracle (fun _ => err) hf
    cfg.retryDelay 30000 cfg.maxRetries 0
  unfold processBatch
  rw [htake, if_neg hlen0]
  unfold withRetry
  simp only [Option.getD_none] at hfail ⊢
  rw [hfail]
  simp [hO, hperm]

/-- processBatch on an empty queue returns without touching the network or
the storage. -/
theorem processBatch_empty (cfg : BatcherConfig)
    (fetchOracle : Nat → Except JsError BatchResult)
    (st : MemoryQueueStorage) (hq : st.queue = []) :
    processBatch cfg fetchOracle st = { storage := st } := by
  unfold processBatch
  simp [MemoryQueueStorage.peek, hq]

/-- processBatch when the first attempt succeeds with no rejection list:
the whole batch is removed, so a queue that fits in one batch is left
empty. -/
theorem processBatch_ok_noErrors (cfg : BatcherConfig)
    (fetchOracle : Nat → Except JsError BatchResult)
    (st : MemoryQueueStorage) (res : BatchResult)
    (h0 : fetchOracle 0 = .ok res) (hres : res.errors = none)
    (hlen : st.queue.length ≤ cfg.batchSize) :
    (processBatch cfg fetchOracle st).storage.queue = [] := by
  by_cases hq : st.queue = []
  · rw [processBatch_empty cfg fetchOracle st hq]
    exact hq
  · rw [processBatch_ok cfg fetchOracle st res h0 hlen hq]
    simp only [hres, Option.getD_none, List.find?_nil, Option.isNone_none,
      List.filter_true]
    exact remove_all_self st

/-! Claim theorems. -/

/-- C2: for every sequence of push operations on a queue with configured
(positive) capacity C, size never exceeds C; pushing C + k events from
empty leaves exactly the last C pushed events in insertion order
(the first k are evicted oldest-first). Since the event list is
universally quantified, the size bound holds after every prefix of any
push sequence. -/
theorem claim_C2 (C : Nat) (hC : 1 ≤ C) (es : List AgentEvent) :
    (MemoryQueueStorage.pushAll { queue := [], maxSize := C } es).size ≤ C
    ∧ ∀ k : Nat, es.length = C + k →
        (MemoryQueueStorage.pushAll { queue := [], maxSize := C } es).queue
          = es.drop k := by
  have hq := pushAll_queue C hC es [] (by simp)
  simp only [List.nil_append, List.length_nil, Nat.zero_add] at hq
  constructor
  · simp only [MemoryQueueStorage.size, hq, List.length_drop]
    omega
  · intro k hk
    rw [hq]
    congr 1
    omega

/-- C2 witness: capacity 2 with three pushes keeps the last two events. -/
theorem claim_C2_witness :
    (MemoryQueueStorage.pushAll { queue := [], maxSize := 2 }
        [evA, evB, evC]).size ≤ 2
    ∧ (MemoryQueueStorage.pushAll { queue := [], maxSize := 2 }
        [evA, evB, evC]).queue = [evA, evB, evC].drop 1 :=
  ⟨(claim_C2 2 (by decide) [evA, evB, evC]).1,
   (claim_C2 2 (by decide) [evA, evB, evC]).2 1 rfl⟩

/-- C9: peek returns the up-to-count oldest events (the front take of the
FIFO queue), returns no more than count of them, leaves the storage
unchanged, and is repeatable: a second peek with no intervening mutation
returns the same list. -/
theorem claim_C9 (s : MemoryQueueStorage) (n : Nat) :
    (s.peek n).1 = s.queue.take n
    ∧ (s.peek n).1.length ≤ n
    ∧ (s.peek n).2 = s
    ∧ ((s.peek n).2.peek n).1 = (s.peek n).1 :=
  ⟨rfl, by simp only [MemoryQueueStorage.peek]; exact List.length_take_le n s.queue,
   rfl, rfl⟩

/-- C5: on an always-failing operation the retry trace's i-th step records
the onRetry hook invocation (the caught error and attempt number i + 1,
fired immediately before the wait) followed by a wait of exactly
min(retryDelay * 2 ^ i, maxDelay) milliseconds, with maxDelay defaulting
to 30000 — for initialDelay 1000 that is 1000, 2000, 4000, 8000 before
attempts 2..5 and capped at 30000 beyond — and the final attempt's error
is propagated as the result. The hook is modelled as a recorded
observation with no channel back into the control flow. -/
theorem claim_C5 {ε α : Type} (fn : Nat → Except ε α) (err : Nat → ε)
    (o : RetryOptions) (hfn : ∀ a, fn a = .error (err a)) :
    (withRetry fn o).steps
      = (List.range o.maxRetries).map (fun i =>
          { error := err i, attempt := i + 1,
            delay := min (o.retryDelay * 2 ^ i) (o.maxDelay.getD 30000) })
    ∧ (withRetry fn o).result = .error (err o.maxRetries) := by
  have h := withRetryAux_fail fn err hfn o.retryDelay
    (o.maxDelay.getD 30000) o.maxRetries 0
  unfold withRetry
  rw [h]
  simp

/-- C5 witness: six retries at initialDelay 1000 wait
1000, 2000, 4000, 8000, 16000 and then 30000 (capped) milliseconds, and
the seventh attempt's error is the propagated result. -/
theorem claim_C5_witness :
    (withRetry (fun a => (Except.error a : Except Nat Unit))
        { maxRetries := 6, retryDelay := 1000 }).steps
      = [{ error := 0, attempt := 1, delay := 1000 },
         { error := 1, attempt := 2, delay := 2000 },
         { error := 2, attempt := 3, delay := 4000 },
         { error := 3, attempt := 4, delay := 8000 },
         { error := 4, attempt := 5, delay := 16000 },
         { error := 5, attempt := 6, delay := 30000 }]
    ∧ (withRetry (fun a => (Except.error a : Except Nat Unit))
        { maxRetries := 6, retryDelay := 1000 }).result = .error 6 := by
  have h := claim_C5 (fun a => (Except.error a : Except Nat Unit))
    (fun a => a) { maxRetries := 6, retryDelay := 1000 } (fun _ => rfl)
  exact ⟨by rw [h.1]; rfl, h.2⟩

/-- C10: withRetry with maxRetries = m on an operation failing at every
invocation runs the operation exactly m + 1 times and propagates the error
of the last invocation. -/
theorem claim_C10 {ε α : Type} (fn : Nat → Except ε α) (err : Nat → ε)
    (o : RetryOptions) (hfn : ∀ a, fn a = .error (err a)) :
    (withRetry fn o).calls = o.maxRetries + 1
    ∧ (withRetry fn o).result = .error (err o.maxRetries) := by
  have h := withRetryAux_fail fn err hfn o.retryDelay
    (o.maxDelay.getD 30000) o.maxRetries 0
  unfold withRetry
  rw [h]
  simp

/-- C10 witness: maxRetries = 3 yields exactly 4 invocations and the
fourth invocation's error. -/
theorem claim_C10_witness :
    (withRetry (fun a => (Except.error (a + 100) : Except Nat Unit))
        { maxRetries := 3, retryDelay := 50 }).calls = 4
    ∧ (withRetry (fun a => (Except.error (a + 100) : Except Nat Unit))
        { maxRetries := 3, retryDelay := 50 }).result = .error 103 :=
  claim_C10 (fun a => (Except.error (a + 100) : Except Nat Unit))
    (fun a => a + 100) { maxRetries := 3, retryDelay := 50 } (fun _ => rfl)

/-- C6: flush is a no-op — state untouched, no transport invocation, no
observer invocation, nothing rethrown — whenever a flush is already in
progress or the batcher is stopped; and the isProcessing flag is never
left set by a flush: the executing branch enters with it false and the
finally block restores false on every outcome, so the flag after flush
always equals the flag before. -/
theorem claim_C6 (cfg : BatcherConfig)
    (fetchOracle : Nat → Except JsError BatchResult) (b : BatcherState) :
    ((b.isProcessing = true ∨ b.isStopped = true) →
      EventBatcher.flush cfg fetchOracle b = { state := b })
    ∧ (EventBatcher.flush cfg fetchOracle b).state.isProcessing
        = b.isProcessing := by
  constructor
  · intro h
    have hc : (b.isProcessing || b.isStopped) = true := by
      rcases h with h | h <;> simp [h]
    simp [EventBatcher.flush, hc]
  · by_cases hc : (b.isProcessing || b.isStopped) = true
    · simp [EventBatcher.flush, hc]
    · rcases Bool.or_eq_false_iff.mp (Bool.not_eq_true _ |>.mp hc) with ⟨hp, hs⟩
      simp [EventBatcher.flush, hc, hp, hs]

/-- C6 witness: a flush entered while another is in progress returns the
state unchanged with zero transport calls. -/
theorem claim_C6_witness :
    EventBatcher.flush cfgW fetchOkOracle
        { storage := { queue := [evA] }, isProcessing := true }
      = { state := { storage := { queue := [evA] }, isProcessing := true } }
    ∧ (EventBatcher.flush cfgW fetchOkOracle
        { storage := { queue := [evA] }, isProcessing := true }).state.isProcessing
      = true :=
  ⟨(claim_C6 cfgW fetchOkOracle
      { storage := { queue := [evA] }, isProcessing := true }).1 (Or.inl rfl),
   (claim_C6 cfgW fetchOkOracle
      { storage := { queue := [evA] }, isProcessing := true }).2⟩

/-- C7: add throws StoppedError exactly when the stopped flag is set, and
then the whole state — the queue included — is unchanged; otherwise the
event is pushed and the non-awaited flush trigger fires precisely when the
queue size has reached batchSize. add itself performs no transport call in
either case. -/
theorem claim_C7 (cfg : BatcherConfig) (b : BatcherState) (e : AgentEvent) :
    (b.isStopped = true →
      EventBatcher.add cfg b e
        = { state := b, result := .error .stopped, flushTriggered := false })
    ∧ (b.isStopped = false →
      (EventBatcher.add cfg b e).state
          = { b with storage := b.storage.push e }
      ∧ (EventBatcher.add cfg b e).result = .ok ()
      ∧ ((EventBatcher.add cfg b e).flushTriggered = true
          ↔ cfg.batchSize ≤ (b.storage.push e).size))
    ∧ (EventBatcher.add cfg b e).transportCalls = 0 := by
  refine ⟨fun h => by simp [EventBatcher.add, h], fun h => ?_, ?_⟩
  · refine ⟨by simp [EventBatcher.add, h], by simp [EventBatcher.add, h], ?_⟩
    simp [EventBatcher.add, h, ge_iff_le]
  · by_cases h : b.isStopped = true
    · simp [EventBatcher.add, h]
    · simp only [Bool.not_eq_true] at h
      simp [EventBatcher.add, h]

/-- C7 witness: on a stopped batcher add fails and changes nothing; on a
live batcher at batchSize 1 the push triggers the flush request. -/
theorem claim_C7_witness :
    EventBatcher.add cfgW { storage := { queue := [] }, isStopped := true } evA
      = { state := { storage := { queue := [] }, isStopped := true },
          result := .error .stopped, flushTriggered := false }
    ∧ (EventBatcher.add cfgW { storage := { queue := [] }, isStopped := true }
        evA).transportCalls = 0 :=
  ⟨(claim_C7 cfgW { storage := { queue := [] }, isStopped := true } evA).1 rfl,
   (claim_C7 cfgW { storage := { queue := [] }, isStopped := true } evA).2.2⟩

/-- C1: the claimed final drain does not happen. stop sets isStopped and
then calls flush, but flush returns immediately when isStopped is set, so
with one event queued and a transport that always succeeds the queue still
holds that event after stop — zero transport calls are made — even though
add thereafter fails with StoppedError as claimed. This contradicts both
the spec and the code's own comment that stop flushes remaining events. -/
theorem claim_C1_bug :
    (EventBatcher.stop cfgW fetchOkOracle
        { storage := { queue := [evA] } }).state.storage.queue = [evA]
    ∧ (EventBatcher.stop cfgW fetchOkOracle
        { storage := { queue := [evA] } }).transportCalls = 0
    ∧ (EventBatcher.add cfgW
        (EventBatcher.stop cfgW fetchOkOracle
          { storage := { queue := [evA] } }).state evB).result
      = .error .stopped :=
  ⟨rfl, rfl, rfl⟩

/-- C3: a flush whose first delivery attempt succeeds with rejection list
errs leaves in the queue exactly the events named in errs, in order, and
removes every other batch event; a subsequent flush whose outcome rejects
nothing removes those too. Identifiers are assumed distinct (an invariant
of the data model) and the queue fits in one batch. -/
theorem claim_C3 (cfg : BatcherConfig) (b : BatcherState)
    (fetch1 fetch2 : Nat → Except JsError BatchResult)
    (res1 res2 : BatchResult) (errs : List EventError)
    (hP : b.isProcessing = false) (hS : b.isStopped = false)
    (hlen : b.storage.queue.length ≤ cfg.batchSize)
    (hnodup : (b.storage.queue.map (fun e => e.event_id)).Nodup)
    (h1 : fetch1 0 = .ok res1) (hres1 : res1.errors = some errs)
    (h2 : fetch2 0 = .ok res2) (hres2 : res2.errors = none) :
    (EventBatcher.flush cfg fetch1 b).state.storage.queue
      = b.storage.queue.filter (fun e =>
          (errs.map (fun er => er.event_id)).contains e.event_id)
    ∧ (EventBatcher.flush cfg fetch2
        (EventBatcher.flush cfg fetch1 b).state).state.storage.queue
      = [] := by
  have hflush1 := flush_active cfg fetch1 b hP hS
  have hpart1 : (EventBatcher.flush cfg fetch1 b).state.storage.queue
      = b.storage.queue.filter (fun e =>
          (errs.map (fun er => er.event_id)).contains e.event_id) := by
    rw [hflush1]
    by_cases hq : b.storage.queue = []
    · rw [processBatch_empty cfg fetch1 b.storage hq]
      simp [hq]
    · rw [processBatch_ok cfg fetch1 b.storage res1 h1 hlen hq]
      simp only [hres1, Option.getD_some]
      exact remove_successful b.storage errs hnodup
  refine ⟨hpart1, ?_⟩
  have hP1 : (EventBatcher.flush cfg fetch1 b).state.isProcessing = false := by
    rw [hflush1]
  have hS1 : (EventBatcher.flush cfg fetch1 b).state.isStopped = false := by
    rw [hflush1]
    exact hS
  rw [flush_active cfg fetch2 _ hP1 hS1]
  refine processBatch_ok_noErrors cfg fetch2 _ res2 h2 hres2 ?_
  rw [hpart1]
  exact le_trans (List.length_filter_le _ _) hlen

/-- C3 witness: a batch of three events with a and c rejected keeps
exactly a and c; the follow-up clean flush empties the queue. -/
theorem claim_C3_witness :
    (EventBatcher.flush cfgW fetchRejAC bW3).state.storage.queue = [evA, evC]
    ∧ (EventBatcher.flush cfgW fetchOkOracle
        (EventBatcher.flush cfgW fetchRejAC bW3).state).state.storage.queue
      = [] := by
  have h := claim_C3 cfgW bW3 fetchRejAC fetchOkOracle resRejAC
    { accepted := 1, rejected := 0 } errsAC rfl rfl (by decide) (by decide)
    rfl rfl rfl rfl
  refine ⟨?_, h.2⟩
  rw [h.1]
  rfl

/-- C4 counterexample: with maxRetries = 2, a batch whose delivery keeps
failing with a permanent HTTP 400 error is still retried — the transport
is invoked 3 times, not once — because withRetry does not classify errors;
only after exhaustion does processBatch consult isRetryableError. This
refutes the claimed absence of retry attempts for permanent errors. -/
theorem claim_C4_counterexample :
    (EventBatcher.flush cfgW fetch400
        { storage := { queue := [evA] } }).transportCalls = 3
    ∧ ¬ (EventBatcher.flush cfgW fetch400
        { storage := { queue := [evA] } }).transportCalls = 1 := by
  have h3 : (EventBatcher.flush cfgW fetch400
      { storage := { queue := [evA] } }).transportCalls = 3 := rfl
  exact ⟨h3, by rw [h3]; decide⟩

/-- C4 amended: a permanently failing transport call is retried like any
other failure — maxRetries + 1 invocations in total, since the retry
executor does not classify errors — and after the final failure, with an
error observer configured, the observer fires exactly once with the whole
batch, nothing is rethrown, and all batch events are removed from the
queue. -/
theorem claim_C4_amended (cfg : BatcherConfig)
    (fetchOracle : Nat → Except JsError BatchResult)
    (b : BatcherState) (err : JsError)
    (hP : b.isProcessing = false) (hS : b.isStopped = false)
    (hO : cfg.hasOnError = true)
    (hperm : isRetryableError err = false)
    (hf : ∀ a, fetchOracle a = .error err)
    (hlen : b.storage.queue.length ≤ cfg.batchSize)
    (hne : b.storage.queue ≠ []) :
    (EventBatcher.flush cfg fetchOracle b).transportCalls
        = cfg.maxRetries + 1
    ∧ (EventBatcher.flush cfg fetchOracle b).onErrorCalls
        = [(err, b.storage.queue)]
    ∧ (EventBatcher.flush cfg fetchOracle b).state.storage.queue = []
    ∧ (EventBatcher.flush cfg fetchOracle b).thrown = none := by
  rw [flush_active cfg fetchOracle b hP hS,
    processBatch_fail_perm cfg fetchOracle b.storage err hf hO hperm hlen hne]
  exact ⟨rfl, rfl, remove_all_self b.storage, rfl⟩

/-- C4 amended witness: one queued event, HTTP 400 on every attempt,
maxRetries = 2: three transport calls, one observer invocation, empty
queue, nothing rethrown. -/
theorem claim_C4_amended_witness :
    (EventBatcher.flush cfgW fetch400
        { storage := { queue := [evA] } }).transportCalls = 2 + 1
    ∧ (EventBatcher.flush cfgW fetch400
        { storage := { queue := [evA] } }).onErrorCalls = [(err400, [evA])]
    ∧ (EventBatcher.flush cfgW fetch400
        { storage := { queue := [evA] } }).state.storage.queue = []
    ∧ (EventBatcher.flush cfgW fetch400
        { storage := { queue := [evA] } }).thrown = none :=
  claim_C4_amended cfgW fetch400 { storage := { queue := [evA] } } err400
    rfl rfl rfl rfl (fun _ => rfl) (by decide) (by decide)

/-- C8 counterexample: a negative batchSize is accepted unchanged at
construction — the constructor returns a resolved configuration rather
than a configuration error, refuting the claim that every non-positive
tunable is rejected at construction time. -/
theorem claim_C8_counterexample :
    IdentroClient.mkConfig { apiKey := "k", batchSize := some (-5) }
      = .ok { batchSize := -5, flushInterval := 1000, maxRetries := 3,
              retryDelay := 1000 } := rfl

/-- C8 amended: the constructor applies the documented defaults
(100, 1000, 3, 1000) when a tunable is absent or zero (JavaScript
falsiness); every other supplied value, negative ones included, is kept
unchanged with no configuration error; the only construction-time failure
is a missing (empty) apiKey. -/
theorem claim_C8_amended (c : IdentroConfig) :
    (c.apiKey = "" →
      IdentroClient.mkConfig c = .error "API key is required")
    ∧ (c.apiKey ≠ "" →
        IdentroClient.mkConfig c
          = .ok { batchSize := orDefault c.batchSize 100,
                  flushInterval := orDefault c.flushInterval 1000,
                  maxRetries := orDefault c.maxRetries 3,
                  retryDelay := orDefault c.retryDelay 1000 })
    ∧ (∀ d : Int, orDefault none d = d)
    ∧ (∀ d : Int, orDefault (some 0) d = d)
    ∧ (∀ v d : Int, v ≠ 0 → orDefault (some v) d = v) := by
  refine ⟨fun h => by simp [IdentroClient.mkConfig, h],
    fun h => by simp [IdentroClient.mkConfig, h],
    fun d => rfl,
    fun d => by simp [orDefault],
    fun v d hv => by simp [orDefault, hv]⟩

/-- C8 amended witness: empty apiKey fails; a present apiKey with a
negative batchSize and the other tunables absent resolves to the negative
value and the defaults. -/
theorem claim_C8_amended_witness :
    IdentroClient.mkConfig { apiKey := "" } = .error "API key is required"
    ∧ IdentroClient.mkConfig { apiKey := "k", batchSize := some (-7) }
      = .ok { batchSize := orDefault (some (-7)) 100,
              flushInterval := orDefault none 1000,
              maxRetries := orDefault none 3,
              retryDelay := orDefault none 1000 } :=
  ⟨(claim_C8_amended { apiKey := "" }).1 rfl,
   (claim_C8_amended { apiKey := "k", batchSize := some (-7) }).2.1
     (by decide)⟩

end IdentroSDK
